import Mathlib

/-!
Shallow embedding of the session state machine and rating-aggregation
engine of `src/server.js` (the socket.io peer-rating server): session
creation and validation (`createSession`), token-based join
(`joinSession`, including the late-joiner result delivery), rating
submission (`submitRatings`), the timer expiry auto-fill (`startTimer`
and the body of its `setTimeout` callback, `timerFire`), and the result
computation and broadcast (`emitResults`).

Embedding conventions:
* JS rating numbers are embedded as `Int`; the SKIPPED sentinel is `-1`.
  Computed averages are embedded as `Rat` (exact rational arithmetic; the
  source only ever divides a sum of submitted integers by a count).
* Socket deliveries are embedded as an explicit list of `Event`s, where
  `Audience.room sid` models `io.to(sid).emit(...)` (delivered to every
  connection joined to the session's room) and `Audience.socket` models
  `socket.emit(...)` (delivered to the calling connection only).
* The Mongo `Session` document is embedded as a structure; the `online`
  field is carried by the schema but never read or written by any handler,
  so it is elided.  `playerTokens` (a JS `Map`) is an association list.
* `setTimeout` scheduling is embedded as a `pending` list on a
  `ServerState`; the scheduled callback body (which captures only the
  session id and re-fetches the session at fire time) is `timerFire`.
-/

namespace PeerRating

abbrev Name := String
abbrev Topic := String

/-- One entry of `session.ratings`: `{rater, target, topic, rating}`.
`rating = -1` is the SKIPPED sentinel. -/
structure RatingTuple where
  rater : Name
  target : Name
  topic : Topic
  rating : Int
deriving DecidableEq, Repr

/-- The Session document of the mongoose schema (without the unused
`online` field). -/
structure Session where
  sessionId : String
  players : List Name
  timer : Nat
  isAnonymous : Bool
  isGameMode : Bool
  topics : List Topic
  ratings : List RatingTuple
  phase : String
  playerTokens : List (Name × String)
  timerStarted : Bool
  startTime : Option Nat
deriving DecidableEq, Repr

/-- JS `String.prototype.trim`: strip whitespace from both ends
(executable character-list model; the core `String.trim` does not reduce
in the kernel). -/
def jsTrim (s : String) : String :=
  ⟨((s.data.dropWhile Char.isWhitespace).reverse.dropWhile Char.isWhitespace).reverse⟩

/-- JS `String.prototype.toLowerCase` (executable character-list model). -/
def jsToLower (s : String) : String :=
  ⟨s.data.map Char.toLower⟩

/-- `[...new Set(xs)]`: deduplicate a list keeping first occurrences,
exactly as iterating a JS `Set` built from the list. -/
def jsSetList (l : List Name) : List Name :=
  l.foldl (fun acc a => if a ∈ acc then acc else acc ++ [a]) []

/-- `session.players.filter(p => p !== 'admin')`. -/
def playersOf (s : Session) : List Name :=
  s.players.filter (fun p => p != "admin")

/-- `[...new Set(ratings.map(r => r.rater))]`. -/
def submittedRatersOf (rs : List RatingTuple) : List Name :=
  jsSetList (rs.map (fun r => r.rater))

/-- The per-result-payload average value: a JS number, or the string
`'No ratings'` marker used by `emitResults` when a topic has no
non-skipped rating. -/
inductive AvgVal where
  | num : Rat → AvgVal
  | noRatings : AvgVal
deriving DecidableEq, Repr

/-- The `results` object `emitResults` builds per player in anonymous
mode: `{ topicAverages }` (the first, authoritative variant of
`emitResults` computes no `totalAverage` and no `skippedCounts`). -/
structure AnonPlayerResults where
  topicAverages : List (Topic × AvgVal)
deriving DecidableEq, Repr

/-- Where an emitted event is delivered: `room sid` is
`io.to(sid).emit(...)` (everyone joined to the session room receives
it); `socket` is `socket.emit(...)` (the calling connection only). -/
inductive Audience where
  | room : String → Audience
  | socket : Audience
deriving DecidableEq, Repr

/-- The payloads of the socket events emitted by the handlers under
verification. -/
inductive EventPayload where
  | sessionDataP (username : Option Name) (players : List Name) (topics : List Topic)
      (timer : Nat) (phase : String) (timerStarted : Bool) (startTime : Option Nat)
  | anonAllRatings (username : Name) (results : AnonPlayerResults)
  | publicAllRatings (results : List RatingTuple)
  | ratingsUpdated (username : Name)
  | timerStartedEvt (timer : Nat) (startTime : Nat)
  | errorEvt (message : String)
deriving DecidableEq, Repr

/-- One emitted socket event. -/
structure Event where
  audience : Audience
  payload : EventPayload
deriving DecidableEq, Repr

/-- An event payload carrying the `allRatingsSubmitted` event name
(either form of results delivery). -/
def isResultsPayload : EventPayload → Bool
  | EventPayload.anonAllRatings _ _ => true
  | EventPayload.publicAllRatings _ => true
  | _ => false

/-- The `username` field of an `allRatingsSubmitted` payload, when the
payload is the per-player anonymous form. -/
def anonPayloadUser : EventPayload → Option Name
  | EventPayload.anonAllRatings u _ => some u
  | _ => none

/-- `emitResults`' per-topic average for one player: filter the ledger
to `target === player`, then to `topic === topic && rating !== -1`,
and average; `'No ratings'` when nothing is left. -/
def topicAvgEmit (rs : List RatingTuple) (player : Name) (topic : Topic) : AvgVal :=
  let playerRatings := rs.filter (fun r => r.target == player)
  let ratingsForTopic := playerRatings.filter (fun r => r.topic == topic && r.rating != -1)
  if ratingsForTopic.length > 0 then
    AvgVal.num ((ratingsForTopic.map (fun r => (r.rating : Rat))).sum / (ratingsForTopic.length : Rat))
  else AvgVal.noRatings

/-- The anonymous-mode `results[player]` object of `emitResults`. -/
def anonResultsFor (topics : List Topic) (rs : List RatingTuple) (player : Name) :
    AnonPlayerResults :=
  ⟨topics.map (fun t => (t, topicAvgEmit rs player t))⟩

/-- `emitResults(session, sessionId, io)` (first, authoritative variant,
`src/server.js` lines 314-352): returns the updated session and the
list of emitted events. -/
def emitResults (s : Session) : Session × List Event :=
  let players := playersOf s
  let submitted := submittedRatersOf s.ratings
  if s.isGameMode && decide (submitted.length < players.length) then (s, [])
  else if s.isAnonymous && decide (submitted.length < players.length) then (s, [])
  else
    let s1 : Session := { s with phase := "results" }
    if s1.isAnonymous then
      (s1, players.map (fun p =>
        ⟨Audience.room s.sessionId,
          EventPayload.anonAllRatings p (anonResultsFor s1.topics s1.ratings p)⟩))
    else
      (s1, [⟨Audience.room s.sessionId, EventPayload.publicAllRatings s1.ratings⟩])

/-- Flattening of the `{target: {topic: rating}}` object received by
`submitRatings` into rating tuples for `username` (the nested `for ... in`
loops). -/
def flattenRatings (username : Name) (ratings : List (Name × List (Topic × Int))) :
    List RatingTuple :=
  ratings.flatMap (fun tr => tr.2.map (fun tv => ⟨username, tr.1, tv.1, tv.2⟩))

/-- The `submitRatings` handler (session already found): replace the
rater's tuples, save, call `emitResults`, then emit `ratingsUpdated`. -/
def submitRatings (s : Session) (username : Name) (ratings : List (Name × List (Topic × Int))) :
    Session × List Event :=
  let newRatings := flattenRatings username ratings
  let s1 : Session := { s with ratings := s.ratings.filter (fun r => r.rater != username) ++ newRatings }
  let res := emitResults s1
  (res.1, res.2 ++ [⟨Audience.room s.sessionId, EventPayload.ratingsUpdated username⟩])

/-- `players − submittedRaters`: the unsubmitted players computed by the
timer callback. -/
def unsubmittedOf (s : Session) : List Name :=
  (playersOf s).filter (fun p => !(submittedRatersOf s.ratings).contains p)

/-- The `autoRatings` collected by the auto-fill loop for one
unsubmitted `username`: a `-1` (SKIPPED) tuple for every
`target × topic` combination (`target !== username`) that has no
existing tuple by `username` in the current ledger. -/
def autoRatingsFor (topics : List Topic) (players : List Name) (rs : List RatingTuple)
    (username : Name) : List RatingTuple :=
  (players.filter (fun t => t != username)).flatMap (fun target =>
    (topics.filter (fun topic =>
      !(rs.any (fun r => r.rater == username && r.target == target && r.topic == topic)))).map
      (fun topic => ⟨username, target, topic, -1⟩))

/-- One iteration of the auto-fill loop: `updatedSession.ratings.push(...autoRatings)`. -/
def autoFillOne (topics : List Topic) (players : List Name) (rs : List RatingTuple)
    (username : Name) : List RatingTuple :=
  rs ++ autoRatingsFor topics players rs username

/-- The body of the `setTimeout` callback scheduled by `startTimer`,
applied to the freshly re-fetched session (the callback captures only
the session id): auto-fill SKIPPED tuples for unsubmitted players and
call `emitResults`, or do nothing when the phase is already `results` or
nobody is unsubmitted.  Note the callback receives no value captured at
scheduling time other than the session id, so it has no way to compare
the current `startTime` with the one current when it was scheduled. -/
def timerFire (s : Session) : Session × List Event :=
  if decide ((unsubmittedOf s).length > 0) && decide (s.phase ≠ "results") then
    let filled := (unsubmittedOf s).foldl
      (fun rs u => autoFillOne s.topics (playersOf s) rs u) s.ratings
    emitResults { s with ratings := filled }
  else (s, [])

/-- One scheduled `setTimeout` firing: the session id the callback
captured and the absolute time it will run. -/
structure PendingFire where
  sessionId : String
  fireAt : Nat
deriving DecidableEq, Repr

/-- The server state relevant to one session: the stored session, the
scheduled (never cancelled) timer firings, and the current clock. -/
structure ServerState where
  session : Session
  pending : List PendingFire
  now : Nat
deriving DecidableEq, Repr

/-- The `startTimer` handler (session already found): set
`timerStarted`/`startTime`, save, emit `timerStarted`, and schedule one
more `setTimeout` firing at `now + timer * 1000`.  No existing timeout
is ever cleared. -/
def startTimer (st : ServerState) : ServerState × List Event :=
  let s := st.session
  let s1 : Session := { s with timerStarted := true, startTime := some st.now }
  ({ st with
      session := s1
      pending := st.pending ++ [⟨s.sessionId, st.now + s.timer * 1000⟩] },
    [⟨Audience.room s.sessionId, EventPayload.timerStartedEvt s.timer st.now⟩])

/-- `[...playerTokens.entries()].find(([_, t]) => t === token)?.[0]`. -/
def resolveToken (s : Session) (token : String) : Option Name :=
  (s.playerTokens.find? (fun pt => pt.2 == token)).map (fun pt => pt.1)

/-- The per-topic average computed by the late-joiner branch of
`joinSession`: average of ALL ratings targeting the player for the topic
(the SKIPPED sentinel `-1` is not filtered out here), `0` when there are
none. -/
def joinTopicAvg (rs : List RatingTuple) (username : Name) (topic : Topic) : Rat :=
  let playerRatings := rs.filter (fun r => r.target == username)
  let ratingsForTopic := (playerRatings.filter (fun r => r.topic == topic)).map (fun r => r.rating)
  if ratingsForTopic.length ≠ 0 then
    ((ratingsForTopic.map (fun v => (v : Rat))).sum) / (ratingsForTopic.length : Rat)
  else 0

/-- The `sessionData` payload `joinSession` sends to the joining
connection. -/
def sessionDataFor (s : Session) (username : Option Name) : EventPayload :=
  EventPayload.sessionDataP username s.players s.topics s.timer s.phase s.timerStarted s.startTime

/-- The `joinSession` handler (session already found): admin joins with
a bare `sessionData`; a token is resolved to a username; a resolved
joiner gets `sessionData` plus — whenever the ledger already has at
least 3 distinct raters — an immediate `allRatingsSubmitted` payload
(per-target averages over all values if the session is anonymous, the
raw ledger otherwise). -/
def joinSession (s : Session) (token : String) (isAdmin : Bool) : List Event :=
  if isAdmin then [⟨Audience.socket, sessionDataFor s none⟩]
  else
    match resolveToken s token with
    | none => [⟨Audience.socket, EventPayload.errorEvt "Invalid or expired token"⟩]
    | some username =>
      ⟨Audience.socket, sessionDataFor s (some username)⟩ ::
      (if decide (3 ≤ (submittedRatersOf s.ratings).length) then
        if s.isAnonymous then
          [⟨Audience.socket, EventPayload.anonAllRatings username
              ⟨s.topics.map (fun t => (t, AvgVal.num (joinTopicAvg s.ratings username t)))⟩⟩]
        else
          [⟨Audience.socket, EventPayload.publicAllRatings s.ratings⟩]
      else [])

/-- The `createSession` handler: the validation chain of the source, in
source order, then the construction of the session document.  The
socket-supplied `players`/`topics` values are `Option`s (`none` models a
missing or non-array value); the random session id and per-player token
generation are parameters. -/
def createSession (players? : Option (List Name)) (timer : Nat)
    (isAnonymous isGameMode : Bool) (topics? : Option (List Topic))
    (sessionId : String) (tok : Name → String) : Except String Session :=
  match players? with
  | none => Except.error "Invalid player data"
  | some players =>
    if isAnonymous && decide (players.length < 4) then
      Except.error "Anonymous mode requires at least 4 players"
    else if players.length < 2 then
      Except.error "At least 2 players are required"
    else if (jsSetList (players.map (fun n => jsToLower (jsTrim n)))).length ≠ players.length then
      Except.error "Each player must have a unique name"
    else if players.any (fun n => jsTrim n == "") then
      Except.error "Player names cannot be empty"
    else
      match topics? with
      | none => Except.error "All topics must be filled"
      | some topics =>
        if topics.any (fun t => t == "") then
          Except.error "All topics must be filled"
        else
          Except.ok
            { sessionId := sessionId
              players := players
              timer := timer
              isAnonymous := isAnonymous
              isGameMode := isGameMode
              topics := topics
              ratings := []
              phase := "waiting"
              playerTokens := players.map (fun p => (p, tok p))
              timerStarted := false
              startTime := none }

/-- Renaming of the raters of a ledger; the anonymous result payloads
must be insensitive to it (no rater-identifying data flows into them). -/
def renameRaters (f : Name → Name) (rs : List RatingTuple) : List RatingTuple :=
  rs.map (fun r => { r with rater := f r.rater })

/-- Specification-side view of the values `emitResults` averages for
`(player, topic)`: the non-SKIPPED ratings targeting the player on the
topic. -/
def validRatingValuesFor (rs : List RatingTuple) (player : Name) (topic : Topic) : List Int :=
  (rs.filter (fun r => r.target == player && r.topic == topic && r.rating != -1)).map
    (fun r => r.rating)

/-- Specification-side view of the values the late-joiner path averages:
all ratings (SKIPPED included) targeting the player on the topic. -/
def allRatingValuesFor (rs : List RatingTuple) (player : Name) (topic : Topic) : List Int :=
  (rs.filter (fun r => r.target == player && r.topic == topic)).map (fun r => r.rating)

/-- Well-formedness of a session's ledger: every tuple's rater and
target are participants and its topic is one of the session's topics. -/
def SessionWF (s : Session) : Prop :=
  ∀ r ∈ s.ratings, r.rater ∈ s.players ∧ r.target ∈ s.players ∧ r.topic ∈ s.topics

/-- The set of inputs on which `createSession` actually reports a
validation error (stated from the source's checks): missing/non-array
players, anonymous with fewer than 4, fewer than 2, duplicate
trimmed-lowercased names, an empty/whitespace-only name, missing/non-array
topics, or an empty topic label.  An empty topics ARRAY is not in this
set. -/
def isInvalidInput (players? : Option (List Name)) (isAnonymous : Bool)
    (topics? : Option (List Topic)) : Prop :=
  match players? with
  | none => True
  | some players =>
    (isAnonymous = true ∧ players.length < 4) ∨ players.length < 2 ∨
    (jsSetList (players.map (fun n => jsToLower (jsTrim n)))).length ≠ players.length ∨
    (∃ n ∈ players, jsTrim n = "") ∨
    (match topics? with
     | none => True
     | some topics => ∃ t ∈ topics, t = "")

/-! ### Concrete sessions used by counterexamples and witnesses -/

/-- A two-player public-mode session with an empty ledger. -/
def pubSession : Session :=
  { sessionId := "sid", players := ["a", "b"], timer := 30, isAnonymous := false,
    isGameMode := false, topics := ["x"], ratings := [], phase := "waiting",
    playerTokens := [("a", "ta"), ("b", "tb")], timerStarted := false, startTime := none }

/-- A game-mode session whose ledger has two distinct raters (`admin`
and `a`), while the non-admin player `b` has submitted nothing. -/
def gameSession : Session :=
  { sessionId := "sid", players := ["admin", "a", "b"], timer := 30, isAnonymous := false,
    isGameMode := true, topics := ["x"],
    ratings := [⟨"admin", "a", "x", 3⟩, ⟨"a", "b", "x", 4⟩], phase := "waiting",
    playerTokens := [("a", "ta"), ("b", "tb")], timerStarted := false, startTime := none }

/-- An anonymous session where three raters each submitted only the
SKIPPED sentinel for target `a` on topic `x`. -/
def anonSkipSession : Session :=
  { sessionId := "sid", players := ["a", "b", "c", "d"], timer := 30, isAnonymous := true,
    isGameMode := false, topics := ["x"],
    ratings := [⟨"b", "a", "x", -1⟩, ⟨"c", "a", "x", -1⟩, ⟨"d", "a", "x", -1⟩],
    phase := "waiting",
    playerTokens := [("a", "ta"), ("b", "tb"), ("c", "tc"), ("d", "td")],
    timerStarted := false, startTime := none }

/-- An anonymous session with full coverage: all four players have
submitted. -/
def anonFullSession : Session :=
  { sessionId := "sid", players := ["a", "b", "c", "d"], timer := 30, isAnonymous := true,
    isGameMode := false, topics := ["x"],
    ratings := [⟨"a", "b", "x", 4⟩, ⟨"b", "a", "x", 4⟩, ⟨"c", "a", "x", 4⟩, ⟨"d", "a", "x", 4⟩],
    phase := "waiting",
    playerTokens := [("a", "ta"), ("b", "tb"), ("c", "tc"), ("d", "td")],
    timerStarted := false, startTime := none }

/-- `startTimer` invoked once on `pubSession` at time 0. -/
def timerOnce : ServerState :=
  (startTimer { session := pubSession, pending := [], now := 0 }).1

/-- `startTimer` re-invoked at time 5000 on the same session. -/
def timerTwice : ServerState :=
  (startTimer { timerOnce with now := 5000 }).1

/-- The session `createSession` builds for two players and an empty
topics array. -/
def emptyTopicsSession : Session :=
  { sessionId := "sid", players := ["a", "b"], timer := 30, isAnonymous := false,
    isGameMode := false, topics := [], ratings := [], phase := "waiting",
    playerTokens := [("a", "t"), ("b", "t")], timerStarted := false, startTime := none }

/-! ### Helper lemmas -/

theorem mem_foldl_jsSet (l acc : List Name) (x : Name) :
    x ∈ l.foldl (fun acc a => if a ∈ acc then acc else acc ++ [a]) acc ↔ x ∈ acc ∨ x ∈ l := by
  induction l generalizing acc with
  | nil => simp
  | cons a l ih =>
    simp only [List.foldl_cons]
    by_cases h : a ∈ acc
    · rw [if_pos h, ih]
      simp only [List.mem_cons]
      constructor
      · rintro (hx | hx)
        · exact Or.inl hx
        · exact Or.inr (Or.inr hx)
      · rintro (hx | rfl | hx)
        · exact Or.inl hx
        · exact Or.inl h
        · exact Or.inr hx
    · rw [if_neg h, ih]
      simp only [List.mem_append, List.mem_cons, List.mem_singleton]
      tauto

theorem jsSetList_mem {x : Name} {l : List Name} : x ∈ jsSetList l ↔ x ∈ l := by
  unfold jsSetList
  rw [mem_foldl_jsSet]
  simp

theorem emitResults_fst (s : Session) :
    (emitResults s).1 = s ∨ (emitResults s).1 = { s with phase := "results" } := by
  unfold emitResults
  simp only []
  split
  · exact Or.inl rfl
  · split
    · exact Or.inl rfl
    · split
      · exact Or.inr rfl
      · exact Or.inr rfl

theorem emitResults_ratings (s : Session) : ((emitResults s).1).ratings = s.ratings := by
  rcases emitResults_fst s with h | h <;> rw [h]

theorem emitResults_players (s : Session) : ((emitResults s).1).players = s.players := by
  rcases emitResults_fst s with h | h <;> rw [h]

theorem emitResults_topics (s : Session) : ((emitResults s).1).topics = s.topics := by
  rcases emitResults_fst s with h | h <;> rw [h]

theorem submitRatings_ratings (s : Session) (u : Name) (rt : List (Name × List (Topic × Int))) :
    ((submitRatings s u rt).1).ratings =
      s.ratings.filter (fun r => r.rater != u) ++ flattenRatings u rt := by
  unfold submitRatings
  simp only []
  rw [emitResults_ratings]

theorem flattenRatings_rater (u : Name) (rt : List (Name × List (Topic × Int))) :
    ∀ r ∈ flattenRatings u rt, r.rater = u := by
  intro r hr
  simp only [flattenRatings, List.mem_flatMap, List.mem_map] at hr
  obtain ⟨tr, _, tv, _, rfl⟩ := hr
  rfl

theorem mem_autoRatingsFor {topics : List Topic} {players : List Name}
    {rs : List RatingTuple} {u : Name} {r : RatingTuple} :
    r ∈ autoRatingsFor topics players rs u ↔
      ∃ target ∈ players, target ≠ u ∧ ∃ topic ∈ topics,
        (rs.any (fun r0 => r0.rater == u && r0.target == target && r0.topic == topic)) = false ∧
        r = ⟨u, target, topic, -1⟩ := by
  simp only [autoRatingsFor, List.mem_flatMap, List.mem_map, List.mem_filter,
    Bool.not_eq_true', bne_iff_ne, ne_eq]
  tauto

theorem no_existing_of_no_rater {rs : List RatingTuple} {u : Name}
    (hnone : ∀ r ∈ rs, r.rater ≠ u) (target : Name) (topic : Topic) :
    (rs.any (fun r0 => r0.rater == u && r0.target == target && r0.topic == topic)) = false := by
  rw [List.any_eq_false]
  intro r0 hr0
  simp only [Bool.and_eq_true, beq_iff_eq, not_and]
  intro h1
  exact absurd h1.1 (hnone r0 hr0)

theorem autoRatingsFor_shape {topics : List Topic} {players : List Name}
    {rs : List RatingTuple} {u : Name} {r : RatingTuple}
    (h : r ∈ autoRatingsFor topics players rs u) :
    r.rater = u ∧ r.target ∈ players ∧ r.topic ∈ topics ∧ r.rating = -1 := by
  obtain ⟨target, htp, _, topic, htt, _, rfl⟩ := mem_autoRatingsFor.mp h
  exact ⟨rfl, htp, htt, rfl⟩

theorem foldl_autoFill_split (topics : List Topic) (players : List Name) :
    ∀ (us : List Name) (rs : List RatingTuple),
      ∃ added, us.foldl (fun rs u => autoFillOne topics players rs u) rs = rs ++ added ∧
        ∀ r ∈ added, r.rater ∈ us ∧ r.target ∈ players ∧ r.topic ∈ topics ∧ r.rating = -1 := by
  intro us
  induction us with
  | nil =>
    intro rs
    exact ⟨[], by simp, by simp⟩
  | cons u us ih =>
    intro rs
    obtain ⟨added, heq, hprop⟩ := ih (autoFillOne topics players rs u)
    refine ⟨autoRatingsFor topics players rs u ++ added, ?_, ?_⟩
    · rw [List.foldl_cons]
      rw [heq, autoFillOne, List.append_assoc]
    · intro r hr
      rcases List.mem_append.mp hr with hr | hr
      · obtain ⟨h1, h2, h3, h4⟩ := autoRatingsFor_shape hr
        exact ⟨by simp [h1], h2, h3, h4⟩
      · obtain ⟨h1, h2, h3, h4⟩ := hprop r hr
        exact ⟨List.mem_cons_of_mem _ h1, h2, h3, h4⟩

theorem foldl_autoFill_mono (topics : List Topic) (players : List Name)
    (us : List Name) (rs : List RatingTuple) {r : RatingTuple} (h : r ∈ rs) :
    r ∈ us.foldl (fun rs u => autoFillOne topics players rs u) rs := by
  obtain ⟨added, heq, -⟩ := foldl_autoFill_split topics players us rs
  rw [heq]
  exact List.mem_append_left _ h

theorem foldl_autoFill_fills (topics : List Topic) (players : List Name) :
    ∀ (us : List Name) (rs : List RatingTuple) (u : Name), u ∈ us →
      (∀ r ∈ rs, r.rater ≠ u) →
      ∀ tgt ∈ players, tgt ≠ u → ∀ tp ∈ topics,
        (⟨u, tgt, tp, -1⟩ : RatingTuple) ∈
          us.foldl (fun rs v => autoFillOne topics players rs v) rs := by
  intro us
  induction us with
  | nil => intro rs u hu; exact absurd hu (List.not_mem_nil u)
  | cons v vs ih =>
    intro rs u hu hnone tgt htgt htne tp htp
    simp only [List.foldl_cons]
    by_cases hv : v = u
    · subst hv
      apply foldl_autoFill_mono
      simp only [autoFillOne, List.mem_append]
      right
      exact mem_autoRatingsFor.mpr
        ⟨tgt, htgt, htne, tp, htp, no_existing_of_no_rater hnone tgt tp, rfl⟩
    · rcases List.mem_cons.mp hu with rfl | hu'
      · exact absurd rfl hv
      · apply ih _ u hu' _ tgt htgt htne tp htp
        intro r hr
        simp only [autoFillOne, List.mem_append] at hr
        rcases hr with hr | hr
        · exact hnone r hr
        · rw [(autoRatingsFor_shape hr).1]
          exact hv

theorem unsubmittedOf_no_tuple {s : Session} {u : Name} (hu : u ∈ unsubmittedOf s) :
    ∀ r ∈ s.ratings, r.rater ≠ u := by
  intro r hr hcon
  have h2 := (List.mem_filter.mp hu).2
  have hnm : u ∉ submittedRatersOf s.ratings := by
    simpa using h2
  exact hnm (jsSetList_mem.mpr (List.mem_map.mpr ⟨r, hr, hcon⟩))

theorem unsubmittedOf_sub_playersOf {s : Session} {u : Name} (hu : u ∈ unsubmittedOf s) :
    u ∈ playersOf s :=
  (List.mem_filter.mp hu).1

theorem playersOf_sub_players {s : Session} {u : Name} (hu : u ∈ playersOf s) :
    u ∈ s.players :=
  (List.mem_filter.mp hu).1

theorem renameRaters_filter_target_topic (f : Name → Name) (rs : List RatingTuple)
    (p : Name) (t : Topic) :
    ((renameRaters f rs).filter (fun r => r.target == p)).filter
        (fun r => r.topic == t && r.rating != -1) =
      renameRaters f ((rs.filter (fun r => r.target == p)).filter
        (fun r => r.topic == t && r.rating != -1)) := by
  simp only [renameRaters, List.filter_map]
  rfl

theorem topicAvgEmit_rename (f : Name → Name) (rs : List RatingTuple) (p : Name) (t : Topic) :
    topicAvgEmit (renameRaters f rs) p t = topicAvgEmit rs p t := by
  simp only [topicAvgEmit]
  rw [renameRaters_filter_target_topic]
  generalize (rs.filter (fun r => r.target == p)).filter
    (fun r => r.topic == t && r.rating != -1) = l
  simp only [renameRaters, List.length_map, List.map_map]
  rfl

theorem timerFire_players (s : Session) : ((timerFire s).1).players = s.players := by
  unfold timerFire
  split
  · rw [emitResults_players]
  · rfl

theorem timerFire_topics (s : Session) : ((timerFire s).1).topics = s.topics := by
  unfold timerFire
  split
  · rw [emitResults_topics]
  · rfl

theorem timerFire_ratings_split (s : Session) :
    ∃ added, ((timerFire s).1).ratings = s.ratings ++ added ∧
      ∀ r ∈ added, r.rater ∈ unsubmittedOf s ∧ r.target ∈ playersOf s ∧
        r.topic ∈ s.topics ∧ r.rating = -1 := by
  unfold timerFire
  split
  · rw [emitResults_ratings]
    exact foldl_autoFill_split s.topics (playersOf s) (unsubmittedOf s) s.ratings
  · exact ⟨[], by simp, by simp⟩

theorem submitRatings_players (s : Session) (u : Name)
    (rt : List (Name × List (Topic × Int))) :
    ((submitRatings s u rt).1).players = s.players := by
  unfold submitRatings
  simp only []
  rw [emitResults_players]

theorem submitRatings_topics (s : Session) (u : Name)
    (rt : List (Name × List (Topic × Int))) :
    ((submitRatings s u rt).1).topics = s.topics := by
  unfold submitRatings
  simp only []
  rw [emitResults_topics]

/-! ### Claim theorems -/

/-- **C1** (claim is the intended design; the code diverges): on a
two-player public-mode session (`isAnonymous = false`,
`isGameMode = false`) where only `a` has submitted, the submission path
immediately sets the phase to `results` — although the non-admin player
`b` has not yet submitted — and broadcasts the full ledger to the whole
room, not just to the submitter.  The claim's "phase stays unchanged
until the final participant's submission, broadcast only to the
submitter" is not what `emitResults` does. -/
theorem C1_public_phase_eval :
    ((submitRatings pubSession "a" [("b", [("x", 5)])]).1).phase = "results" ∧
    "b" ∈ playersOf pubSession ∧
    "b" ∉ ((submitRatings pubSession "a" [("b", [("x", 5)])]).1).ratings.map (fun r => r.rater) ∧
    ((submitRatings pubSession "a" [("b", [("x", 5)])]).2).map (fun e => e.audience) =
      [Audience.room "sid", Audience.room "sid"] := by decide

/-- **C2** (counterexample): in anonymous mode with full coverage,
`emitResults` emits player `a`'s results payload to the *room*
(`io.to(sessionId).emit`), which delivers it to every joined
participant — in particular to player `b ≠ a`.  So it is false that each
player is delivered only their own aggregated results. -/
theorem C2_counterexample :
    ((emitResults anonFullSession).2).any (fun e =>
        decide (e.audience = Audience.room "sid") &&
          (anonPayloadUser e.payload == some "a")) = true ∧
    "b" ∈ playersOf anonFullSession ∧ "b" ≠ "a" := by decide

/-- **C2** (amended): in anonymous mode, once the reveal condition
holds, `emitResults` emits one payload per player to the whole session
room, each tagged with that player's username and containing only that
player's `topicAverages`; and the aggregate a payload carries is
invariant under any renaming of the raters of the ledger (no
rater-identifying data flows into any payload — there is no `rater`
field). -/
theorem C2_anon_room_broadcast (s : Session) (hA : s.isAnonymous = true)
    (hc : (playersOf s).length ≤ (submittedRatersOf s.ratings).length) :
    (emitResults s).2 = (playersOf s).map (fun p =>
      ⟨Audience.room s.sessionId,
        EventPayload.anonAllRatings p (anonResultsFor s.topics s.ratings p)⟩) ∧
    ∀ (f : Name → Name) (p : Name) (t : Topic),
      topicAvgEmit (renameRaters f s.ratings) p t = topicAvgEmit s.ratings p t := by
  refine ⟨?_, fun f p t => topicAvgEmit_rename f s.ratings p t⟩
  have hlt : decide ((submittedRatersOf s.ratings).length < (playersOf s).length) = false := by
    simp [Nat.not_lt.mpr hc]
  unfold emitResults
  simp only [hlt, Bool.and_false, Bool.false_eq_true, if_false, hA, if_true]

/-- Witness for the C2 amended theorem at `anonFullSession`. -/
theorem C2_anon_room_broadcast_witness :
    (playersOf anonFullSession).length ≤ (submittedRatersOf anonFullSession.ratings).length ∧
    topicAvgEmit (renameRaters (fun _ => "z") anonFullSession.ratings) "a" "x" =
      topicAvgEmit anonFullSession.ratings "a" "x" :=
  ⟨by decide, (C2_anon_room_broadcast anonFullSession rfl (by decide)).2 (fun _ => "z") "a" "x"⟩

/-- **C3** (counterexample): in game mode, `emitResults` compares
*counts* (`submittedUsers.length < players.length`), not set inclusion.
On `gameSession`, the ledger's two distinct raters are `admin` and `a`,
so the count reaches the two non-admin players and the phase moves to
`results` even though non-admin player `b` has submitted nothing —
refuting the claimed "reveal only if every non-admin participant appears
as a rater". -/
theorem C3_counterexample :
    ((emitResults gameSession).1).phase = "results" ∧
    gameSession.phase ≠ "results" ∧
    "b" ∈ playersOf gameSession ∧
    "b" ∉ gameSession.ratings.map (fun r => r.rater) := by decide

/-- **C3** (amended): in game or anonymous mode, `emitResults` reveals
(moves the phase to `results`) iff the *number* of distinct raters in
the ledger is at least the number of non-admin players; below that
count it returns with no mutation and no event. -/
theorem C3_count_rule (s : Session) (h : s.isGameMode = true ∨ s.isAnonymous = true) :
    if (submittedRatersOf s.ratings).length < (playersOf s).length
    then emitResults s = (s, [])
    else (emitResults s).1 = { s with phase := "results" } := by
  unfold emitResults
  simp only []
  by_cases hlt : (submittedRatersOf s.ratings).length < (playersOf s).length
  · rw [if_pos hlt]
    rcases h with h | h
    · rw [if_pos (by simp [h, hlt])]
    · by_cases hg : s.isGameMode = true
      · rw [if_pos (by simp [hg, hlt])]
      · rw [if_neg (by simp [hg]), if_pos (by simp [h, hlt])]
  · rw [if_neg hlt]
    have hd : decide ((submittedRatersOf s.ratings).length < (playersOf s).length) = false := by
      simp [hlt]
    rw [if_neg (by simp [hd]), if_neg (by simp [hd])]
    split
    · rfl
    · rfl

/-- Witness for the C3 amended theorem at `gameSession` (count
reached, phase moves to `results`). -/
theorem C3_count_rule_witness :
    (emitResults gameSession).1 = { gameSession with phase := "results" } := by
  have h := C3_count_rule gameSession (Or.inl rfl)
  rw [if_neg (by decide)] at h
  exact h

/-- **C4** (claim is the intended design; the code diverges):
re-invoking `startTimer` schedules a second `setTimeout` without
cancelling the first, so two firings are pending; and the callback body
(`timerFire`) receives nothing captured at scheduling time except the
session id, so the superseded (stale) firing performs no staleness
check and still mutates the session: on `timerTwice` a firing fills
SKIPPED tuples and drives the phase to `results`. -/
theorem C4_timer_restart_eval :
    timerTwice.pending.length = 2 ∧
    timerTwice.session.startTime = some 5000 ∧
    timerTwice.pending = [⟨"sid", 30000⟩, ⟨"sid", 35000⟩] ∧
    ((timerFire timerTwice.session).1).ratings ≠ timerTwice.session.ratings ∧
    ((timerFire timerTwice.session).1).phase = "results" := by decide

/-- **C5** (claim states the intended aggregation; the late-joiner code
diverges): on `anonSkipSession` every rating for `(a, x)` is the SKIPPED
sentinel.  `emitResults`' aggregator correctly yields the `No ratings`
marker, but the late-joiner path of `joinSession` averages the raw
values *including* the SKIPPED `-1`s and delivers the number `-1` — a
number, not the marker. -/
theorem C5_late_join_eval :
    (⟨Audience.socket, EventPayload.anonAllRatings "a" ⟨[("x", AvgVal.num (-1))]⟩⟩ : Event)
      ∈ joinSession anonSkipSession "ta" false ∧
    topicAvgEmit anonSkipSession.ratings "a" "x" = AvgVal.noRatings ∧
    AvgVal.num (-1) ≠ AvgVal.noRatings ∧ AvgVal.num (-1) ≠ AvgVal.num 0 := by
  refine ⟨?_, by decide, by decide, by decide⟩
  have h : joinTopicAvg
      [(⟨"b", "a", "x", -1⟩ : RatingTuple), ⟨"c", "a", "x", -1⟩, ⟨"d", "a", "x", -1⟩]
      "a" "x" = -1 := by
    norm_num [joinTopicAvg, List.filter, List.map, List.sum]
  simp [joinSession, resolveToken, anonSkipSession, submittedRatersOf, jsSetList,
    List.find?, h]

/-- **C6**: after `submitRatings` for rater `u`, the ledger's tuples
whose rater is `u` are exactly the flattened new submission, and the
tuples of every other rater are exactly what they were before the
call. -/
theorem C6_submit_replaces (s : Session) (u : Name)
    (rt : List (Name × List (Topic × Int))) :
    ((submitRatings s u rt).1).ratings.filter (fun r => r.rater == u) = flattenRatings u rt ∧
    ((submitRatings s u rt).1).ratings.filter (fun r => r.rater != u) =
      s.ratings.filter (fun r => r.rater != u) := by
  rw [submitRatings_ratings, List.filter_append, List.filter_append]
  constructor
  · have h1 : (s.ratings.filter (fun r => r.rater != u)).filter (fun r => r.rater == u) = [] := by
      apply List.filter_eq_nil_iff.mpr
      intro r hr
      have h := (List.mem_filter.mp hr).2
      simp only [bne_iff_ne, ne_eq] at h
      simp [h]
    have h2 : (flattenRatings u rt).filter (fun r => r.rater == u) = flattenRatings u rt := by
      apply List.filter_eq_self.mpr
      intro r hr
      simp [flattenRatings_rater u rt r hr]
    rw [h1, h2, List.nil_append]
  · have h1 : (s.ratings.filter (fun r => r.rater != u)).filter (fun r => r.rater != u) =
        s.ratings.filter (fun r => r.rater != u) := by
      apply List.filter_eq_self.mpr
      intro r hr
      exact (List.mem_filter.mp hr).2
    have h2 : (flattenRatings u rt).filter (fun r => r.rater != u) = [] := by
      apply List.filter_eq_nil_iff.mpr
      intro r hr
      simp [flattenRatings_rater u rt r hr]
    rw [h1, h2, List.append_nil]

/-- **C7**: if the timer fires while the phase is `results` or nobody is
unsubmitted, nothing is mutated and nothing emitted; otherwise the
ledger is extended (never rewritten) by SKIPPED tuples of unsubmitted
raters only, and afterwards every unsubmitted player has a SKIPPED tuple
for every non-admin target other than themselves and every topic. -/
theorem C7_timer_fire (s : Session) :
    (s.phase = "results" ∨ unsubmittedOf s = [] → timerFire s = (s, [])) ∧
    (s.phase ≠ "results" → unsubmittedOf s ≠ [] →
      (∃ added, ((timerFire s).1).ratings = s.ratings ++ added ∧
          ∀ r ∈ added, r.rating = -1 ∧ r.rater ∈ unsubmittedOf s) ∧
      ∀ u ∈ unsubmittedOf s, ∀ tgt ∈ playersOf s, tgt ≠ u → ∀ tp ∈ s.topics,
        (⟨u, tgt, tp, -1⟩ : RatingTuple) ∈ ((timerFire s).1).ratings) := by
  constructor
  · intro h
    unfold timerFire
    rw [if_neg]
    simp only [Bool.and_eq_true, decide_eq_true_eq, not_and, gt_iff_lt, ne_eq]
    intro hlen
    rcases h with h | h
    · intro hph
      exact hph h
    · exfalso
      rw [h] at hlen
      simp at hlen
  · intro hph hne
    have hcond : (decide ((unsubmittedOf s).length > 0) && decide (s.phase ≠ "results")) = true := by
      simp only [Bool.and_eq_true, decide_eq_true_eq, gt_iff_lt, ne_eq]
      exact ⟨List.length_pos.mpr hne, hph⟩
    unfold timerFire
    rw [if_pos hcond]
    constructor
    · obtain ⟨added, heq, hprop⟩ :=
        foldl_autoFill_split s.topics (playersOf s) (unsubmittedOf s) s.ratings
      refine ⟨added, ?_, ?_⟩
      · rw [emitResults_ratings]
        exact heq
      · intro r hr
        obtain ⟨h1, h2, h3, h4⟩ := hprop r hr
        exact ⟨h4, h1⟩
    · intro u hu tgt htgt htne tp htp
      rw [emitResults_ratings]
      exact foldl_autoFill_fills s.topics (playersOf s) (unsubmittedOf s) s.ratings u hu
        (unsubmittedOf_no_tuple hu) tgt htgt htne tp htp

/-- Witness for C7 at `pubSession`: after the firing, the unsubmitted
player `b` has a SKIPPED tuple targeting `a` on topic `x`. -/
theorem C7_timer_fire_witness :
    (⟨"b", "a", "x", -1⟩ : RatingTuple) ∈ ((timerFire pubSession).1).ratings :=
  ((C7_timer_fire pubSession).2 (by decide) (by decide)).2 "b" (by decide) "a" (by decide)
    (by decide) "x" (by decide)

/-- **C8** (counterexample): an empty topics *array* passes every
validation check — `createSession` happily creates a session with no
topics instead of reporting a validation error, refuting the claimed
"error exactly when ... empty/missing topics". -/
theorem C8_counterexample :
    createSession (some ["a", "b"]) 30 false false (some []) "sid" (fun _ => "t") =
      Except.ok emptyTopicsSession := by rfl

/-- **C8** (amended): `createSession` reports a validation error (and
builds no session) exactly when: the players value is missing/non-array,
anonymous mode has fewer than 4 players, fewer than 2 players, duplicate
trimmed-lowercased names, an empty or whitespace-only name, the topics
value is missing/non-array, or some topic label is the empty string.
An empty topics array is accepted. -/
theorem C8_validation_amended (players? : Option (List Name)) (timer : Nat)
    (isA isG : Bool) (topics? : Option (List Topic)) (sid : String) (tok : Name → String) :
    (∃ e, createSession players? timer isA isG topics? sid tok = Except.error e) ↔
      isInvalidInput players? isA topics? := by
  cases players? with
  | none => simp [createSession, isInvalidInput]
  | some players =>
    simp only [createSession, isInvalidInput]
    by_cases h1 : (isA && decide (players.length < 4)) = true
    · rw [if_pos h1]
      simp only [Bool.and_eq_true, decide_eq_true_eq] at h1
      exact iff_of_true ⟨_, rfl⟩ (Or.inl h1)
    · rw [if_neg h1]
      simp only [Bool.and_eq_true, decide_eq_true_eq, not_and, Nat.not_lt] at h1
      by_cases h2 : players.length < 2
      · rw [if_pos h2]
        exact iff_of_true ⟨_, rfl⟩ (Or.inr (Or.inl h2))
      · rw [if_neg h2]
        by_cases h3 : (jsSetList (players.map (fun n => jsToLower (jsTrim n)))).length ≠
            players.length
        · rw [if_pos h3]
          exact iff_of_true ⟨_, rfl⟩ (Or.inr (Or.inr (Or.inl h3)))
        · rw [if_neg h3]
          by_cases h4 : (players.any fun n => jsTrim n == "") = true
          · rw [if_pos h4]
            simp only [List.any_eq_true, beq_iff_eq] at h4
            exact iff_of_true ⟨_, rfl⟩ (Or.inr (Or.inr (Or.inr (Or.inl h4))))
          · rw [if_neg h4]
            simp only [List.any_eq_true, beq_iff_eq] at h4
            cases topics? with
            | none => exact iff_of_true ⟨_, rfl⟩ (Or.inr (Or.inr (Or.inr (Or.inr trivial))))
            | some topics =>
              dsimp only
              by_cases h5 : (topics.any fun t => t == "") = true
              · rw [if_pos h5]
                simp only [List.any_eq_true, beq_iff_eq] at h5
                exact iff_of_true ⟨_, rfl⟩ (Or.inr (Or.inr (Or.inr (Or.inr h5))))
              · rw [if_neg h5]
                simp only [List.any_eq_true, beq_iff_eq] at h5
                apply iff_of_false
                · rintro ⟨e, he⟩
                  exact Except.noConfusion he
                · rintro (⟨hA', hlt⟩ | hlt | hdup | hex | hex)
                  · exact absurd hlt (Nat.not_lt.mpr (h1 hA'))
                  · exact h2 hlt
                  · exact h3 hdup
                  · exact h4 hex
                  · exact h5 hex

/-- **C9** (counterexample): `submitRatings` performs no membership
validation, so a single call can put a tuple whose rater, target and
topic are all outside the session's participants/topics into the
ledger — refuting the claimed invariant for arbitrary operation
sequences. -/
theorem C9_counterexample :
    (⟨"zed", "q", "w", 5⟩ : RatingTuple)
        ∈ ((submitRatings pubSession "zed" [("q", [("w", 5)])]).1).ratings ∧
    "zed" ∉ pubSession.players ∧ "q" ∉ pubSession.players ∧ "w" ∉ pubSession.topics := by
  decide

/-- **C9** (amended): the well-formedness invariant is preserved by the
timer auto-fill unconditionally, and by `submitRatings` whenever the
submission's rater, targets and topics lie within the session's
participants and topics; it is not enforced against arbitrary
submissions. -/
theorem C9_wf_amended (s : Session) (hWF : SessionWF s) :
    SessionWF ((timerFire s).1) ∧
    ∀ (u : Name) (rt : List (Name × List (Topic × Int))), u ∈ s.players →
      (∀ pr ∈ rt, pr.1 ∈ s.players ∧ ∀ tv ∈ pr.2, tv.1 ∈ s.topics) →
      SessionWF ((submitRatings s u rt).1) := by
  constructor
  · intro r hr
    rw [timerFire_players, timerFire_topics]
    obtain ⟨added, heq, hprop⟩ := timerFire_ratings_split s
    rw [heq] at hr
    rcases List.mem_append.mp hr with hr | hr
    · exact hWF r hr
    · obtain ⟨h1, h2, h3, -⟩ := hprop r hr
      exact ⟨playersOf_sub_players (unsubmittedOf_sub_playersOf h1),
        playersOf_sub_players h2, h3⟩
  · intro u rt hu hin r hr
    rw [submitRatings_players, submitRatings_topics]
    rw [submitRatings_ratings] at hr
    rcases List.mem_append.mp hr with hr | hr
    · exact hWF r (List.mem_filter.mp hr).1
    · simp only [flattenRatings, List.mem_flatMap, List.mem_map] at hr
      obtain ⟨tr, htr, tv, htv, rfl⟩ := hr
      exact ⟨hu, (hin tr htr).1, (hin tr htr).2 tv htv⟩

/-- Witness for the C9 amended theorem at `pubSession` (empty, trivially
well-formed ledger). -/
theorem C9_wf_witness : SessionWF ((timerFire pubSession).1) :=
  (C9_wf_amended pubSession (by intro r hr; simp [pubSession] at hr)).1

/-- **C10**: whenever a join resolves a valid token, the late-joiner
branch sends the joining connection an `allRatingsSubmitted` payload iff
the ledger has at least 3 distinct raters — with no regard to the
session's mode, its completion rule, or its phase (the statement
quantifies over arbitrary sessions). -/
theorem C10_late_join (s : Session) (token : String) (u : Name)
    (hres : resolveToken s token = some u) :
    (3 ≤ (submittedRatersOf s.ratings).length →
      ∃ p, (⟨Audience.socket, p⟩ : Event) ∈ joinSession s token false ∧
        isResultsPayload p = true) ∧
    ((submittedRatersOf s.ratings).length < 3 →
      ∀ e ∈ joinSession s token false, isResultsPayload e.payload = false) := by
  unfold joinSession
  rw [if_neg (by simp), hres]
  dsimp only
  constructor
  · intro h3
    rw [if_pos (by simpa using h3)]
    by_cases hA : s.isAnonymous = true
    · rw [if_pos hA]
      refine ⟨EventPayload.anonAllRatings u
        ⟨s.topics.map (fun t => (t, AvgVal.num (joinTopicAvg s.ratings u t)))⟩, ?_, rfl⟩
      simp
    · rw [if_neg hA]
      refine ⟨EventPayload.publicAllRatings s.ratings, ?_, rfl⟩
      simp
  · intro h3
    rw [if_neg (by simpa using Nat.not_le.mpr h3)]
    intro e he
    simp only [List.mem_singleton] at he
    subst he
    rfl

/-- Witness for C10 at `anonSkipSession` (3 distinct raters). -/
theorem C10_late_join_witness :
    ∃ p, (⟨Audience.socket, p⟩ : Event) ∈ joinSession anonSkipSession "ta" false ∧
      isResultsPayload p = true :=
  (C10_late_join anonSkipSession "ta" "a" rfl).1 (by decide)

end PeerRating
